import Mathlib

/-!
Shallow embedding of the goagent device agent for AWS IoT jobs driven
full-system updates.  The embedding follows the two Go packages:

* awsiotjobs (awsiotjobs.go): the job status reporter (JobExecution with
  InProgress / Success / Fail / Reject / Terminate), the update-echo
  handler, and the job dispatcher (parseJobMessage, jobHandler).
* mender (mender.go): the update orchestrator (parseJobDocument, Process,
  Job.exec) driving the external mender Commander.

Transport effects (publishes, subscribes, unsubscribes) are made explicit
as action lists; the outcome of a publish acknowledgment and of the
external commander calls are passed in as parameters, mirroring the
nondeterminism of the real transport and tool.
-/

namespace AwsIotJobs

/-- JobError from awsiotjobs.go: an error code plus message. -/
structure JobError where
  ErrCode : String := ""
  ErrMessage : String := ""
deriving DecidableEq, Repr

/-- The Error method of JobError: fmt.Sprintf("code %s, msg: %s", ...). -/
def JobError.Error (err : JobError) : String :=
  "code " ++ err.ErrCode ++ ", msg: " ++ err.ErrMessage

/-- StatusDetails is a JSON object in Go (map from string keys); the agent
only ever stores string values ("step" markers and the "error" line), so it
is embedded as an association list from keys to string values. -/
abbrev StatusDetails : Type := List (String × String)

/-- JobDocument is a JSON object in Go; the agent reads exactly the
"operation" and "url" fields (json.Unmarshal into mender.Job), with a
missing field decoding to the empty string. -/
structure JobDocument where
  operation : String := ""
  url : String := ""
deriving DecidableEq, Repr

/-- JobExecution from awsiotjobs.go (field names lowered to Lean style).
The client pointer is replaced by carrying the thing name directly:
jobHandler copies client.config.ThingName into the record, and every topic
built by the reporter uses that same name. -/
structure JobExecution where
  jobID : String := ""
  thingName : String := ""
  jobDocument : JobDocument := {}
  status : String := ""
  statusDetails : StatusDetails := []
  queuedAt : Int := 0
  startedAt : Int := 0
  lastUpdatedAt : Int := 0
  versionNumber : Int := 0
  executionNumber : Int := 0
deriving DecidableEq

/-- jobBaseTopic: fmt.Sprintf("$aws/things/%s/jobs/%s", thingName, suffix). -/
def jobBaseTopic (thingName suffix : String) : String :=
  "$aws/things/" ++ thingName ++ "/jobs/" ++ suffix

/-- The per-thing update echo topic used by subscribeToUpdates and
unsubscribeFromUpdates. -/
def echoTopic (thingName : String) : String :=
  jobBaseTopic thingName "+/update/accepted"

/-- The JSON payload built by getUpdatePayload. -/
structure UpdatePayload where
  status : String
  statusDetails : StatusDetails
  expectedVersion : Int
  executionNumber : Int
  includeJobExecutionState : Bool
  clientToken : String
deriving DecidableEq

/-- getUpdatePayload from awsiotjobs.go: the status update message, carrying
the locally tracked VersionNumber as expectedVersion. -/
def getUpdatePayload (je : JobExecution) : UpdatePayload :=
  { status := je.status
    statusDetails := je.statusDetails
    expectedVersion := je.versionNumber
    executionNumber := je.executionNumber
    includeJobExecutionState := true
    clientToken := "client-token" }

/-- Outcome of one publish as observed through the paho token:
ackedOk means token.WaitTimeout(2s) returned true and token.Error() was nil;
ackedErr means token.WaitTimeout(2s) returned true with a non-nil error;
timedOut means token.WaitTimeout(2s) returned false (the 2 second wait
elapsed without the publish completing). -/
inductive PublishOutcome where
  | ackedOk : PublishOutcome
  | ackedErr (msg : String) : PublishOutcome
  | timedOut : PublishOutcome
deriving DecidableEq

/-- Transport actions performed by the reporter. -/
inductive ReporterAction where
  | publishStatus (p : UpdatePayload) : ReporterAction
  | unsubscribeTopic (topic : String) : ReporterAction
deriving DecidableEq

/-- Go error values returned by the embedded functions: either a JobError
or a plain error rendered as its message string. -/
inductive GoErr where
  | job (e : JobError) : GoErr
  | str (s : String) : GoErr
deriving DecidableEq

/-- Result of one reporter operation: the updated record, the transport
actions performed, and the returned error (none models a nil error). -/
structure ReporterResult where
  state : JobExecution
  actions : List ReporterAction
  err : Option String
deriving DecidableEq

/-- The value returned by sendUpdate given the publish outcome.  In Go:
if token.WaitTimeout(publishTimeout) && token.Error() != nil then the token
error is returned; in every other case, the timed-out case included, the
function returns nil. -/
def sendUpdateResult : PublishOutcome → Option String
  | .ackedErr msg => some msg
  | _ => none

/-- sendUpdate from awsiotjobs.go: publishes the update payload on the
jobs/<jobId>/update topic and returns sendUpdateResult of the outcome. -/
def JobExecution.sendUpdate (je : JobExecution) (o : PublishOutcome) :
    List ReporterAction × Option String :=
  ([.publishStatus (getUpdatePayload je)], sendUpdateResult o)

/-- InProgress: sets StatusDetails and Status := "IN_PROGRESS", then
sendUpdate; the transport error, if any, is returned unchanged. -/
def JobExecution.InProgress (je : JobExecution) (sd : StatusDetails)
    (o : PublishOutcome) : ReporterResult :=
  let s := { je with statusDetails := sd, status := "IN_PROGRESS" : JobExecution }
  let u := s.sendUpdate o
  { state := s, actions := u.1, err := u.2 }

/-- Success: sets StatusDetails and Status := "SUCCEEDED", sendUpdate; on a
nil send result it also releases the update echo subscription.  There is no
check of the previous status before publishing. -/
def JobExecution.Success (je : JobExecution) (sd : StatusDetails)
    (o : PublishOutcome) : ReporterResult :=
  let s := { je with statusDetails := sd, status := "SUCCEEDED" : JobExecution }
  let u := s.sendUpdate o
  match u.2 with
  | some e => { state := s, actions := u.1, err := some e }
  | none =>
      { state := s
        actions := u.1 ++ [.unsubscribeTopic (echoTopic s.thingName)]
        err := none }

/-- Fail: replaces StatusDetails with the single "error" entry rendering
err.Error, sets Status := "FAILED", sendUpdate; on a non-nil send result the
Go code returns the JobError argument itself (rendered here through Error),
otherwise it unsubscribes from updates and returns nil. -/
def JobExecution.Fail (je : JobExecution) (err : JobError)
    (o : PublishOutcome) : ReporterResult :=
  let s := { je with statusDetails := [("error", err.Error)],
                     status := "FAILED" : JobExecution }
  let u := s.sendUpdate o
  match u.2 with
  | some _ => { state := s, actions := u.1, err := some err.Error }
  | none =>
      { state := s
        actions := u.1 ++ [.unsubscribeTopic (echoTopic s.thingName)]
        err := none }

/-- Reject: same shape as Fail with Status := "REJECTED". -/
def JobExecution.Reject (je : JobExecution) (err : JobError)
    (o : PublishOutcome) : ReporterResult :=
  let s := { je with statusDetails := [("error", err.Error)],
                     status := "REJECTED" : JobExecution }
  let u := s.sendUpdate o
  match u.2 with
  | some _ => { state := s, actions := u.1, err := some err.Error }
  | none =>
      { state := s
        actions := u.1 ++ [.unsubscribeTopic (echoTopic s.thingName)]
        err := none }

/-- Client.unsubscribe: unsubscribes the five job notification topics. -/
def clientUnsubscribe (thingName : String) : List ReporterAction :=
  [ .unsubscribeTopic (jobBaseTopic thingName "notify-next")
  , .unsubscribeTopic (jobBaseTopic thingName "+/get/accepted")
  , .unsubscribeTopic (jobBaseTopic thingName "+/get/rejected")
  , .unsubscribeTopic (jobBaseTopic thingName "start-next/accepted")
  , .unsubscribeTopic (jobBaseTopic thingName "start-next/rejected") ]

/-- Terminate: calls client.unsubscribe; no status message is built or
published and no other record field is touched. -/
def JobExecution.Terminate (je : JobExecution) : List ReporterAction :=
  clientUnsubscribe je.thingName

/-- executionStateType from awsiotjobs.go: the part of the update echo the
handler reads. -/
structure ExecutionStateType where
  status : String := ""
  statusDetails : StatusDetails := []
  versionNumber : Int := 0
deriving DecidableEq

/-- updateHandler: on an accepted echo, stores the echoed versionNumber and
statusDetails into the record. -/
def JobExecution.updateHandler (je : JobExecution) (es : ExecutionStateType) :
    JobExecution :=
  { je with versionNumber := es.versionNumber, statusDetails := es.statusDetails }

/-- parseJobMessage: raw is the payload text, execution is the decoded
"execution" field when present.  A payload without an "execution" field
yields the ERR_INVALID_JOB error embedding the payload text. -/
def parseJobMessage (raw : String) (execution : Option JobExecution) :
    Except JobError JobExecution :=
  match execution with
  | none =>
      .error { ErrCode := "ERR_INVALID_JOB"
               ErrMessage := "missing \"execution\" from payload: " ++ raw }
  | some je => .ok je

/-- Actions of the dispatcher on one incoming message. -/
inductive DispatchAction where
  | subscribeTopic (topic : String) : DispatchAction
  | spawnHandler (je : JobExecution) : DispatchAction
deriving DecidableEq

/-- Client.jobHandler: parse the message; on error log and return doing
nothing; otherwise stamp the thing name, subscribe the update echo topic and
hand the record to the configured handler asynchronously. -/
def jobHandler (thingName raw : String) (execution : Option JobExecution) :
    List DispatchAction :=
  match parseJobMessage raw execution with
  | .error _ => []
  | .ok je =>
      let je' := { je with thingName := thingName }
      [ .subscribeTopic (echoTopic thingName), .spawnHandler je' ]

/-- Recognizes a status publish among reporter actions. -/
def isPublishStatus : ReporterAction → Bool
  | .publishStatus _ => true
  | _ => false

/-- Number of status messages published by a list of reporter actions. -/
def countPublish (as : List ReporterAction) : Nat :=
  as.countP isPublishStatus

/-- The expectedVersion values carried by the status publishes of an action
list, in order. -/
def publishedVersions : List ReporterAction → List Int
  | [] => []
  | .publishStatus p :: rest => p.expectedVersion :: publishedVersions rest
  | .unsubscribeTopic _ :: rest => publishedVersions rest

end AwsIotJobs

namespace Mender

open AwsIotJobs

/-- State from mender.go: the persisted step marker. -/
structure State where
  step : String := ""
deriving DecidableEq, Repr

/-- Job from mender.go: the decoded job document plus the persisted mender
state.  The execution pointer of the Go struct is replaced by recording the
calls made on it as explicit actions. -/
structure Job where
  operation : String := ""
  url : String := ""
  menderState : State := {}
deriving DecidableEq, Repr

/-- Decoding of StatusDetails into State: json.Unmarshal picks the "step"
field and a missing field decodes to the empty string. -/
def stepOf (sd : StatusDetails) : String :=
  (List.lookup "step" sd).getD ""

/-- One event observed by the select loop of the install branch, in arrival
order: a progress line from the commander, the terminal result on the done
channel (none models a nil error), or expiry of the timeout timer. -/
inductive InstallEvent where
  | progress (line : String) : InstallEvent
  | done (res : Option String) : InstallEvent
  | timeout : InstallEvent
deriving DecidableEq

/-- Calls made by the orchestrator on the commander, the reporter and the
operating system, in program order. -/
inductive ExecAction where
  | callInstall (url : String) : ExecAction
  | callCommit : ExecAction
  | callRollback : ExecAction
  | reportInProgress (step : String) : ExecAction
  | reportProgressMsg (line : String) : ExecAction
  | reportSuccess (step : String) : ExecAction
  | reportFail (e : JobError) : ExecAction
  | spawnReboot : ExecAction
  | rebootCmd : ExecAction
  | terminate : ExecAction
deriving DecidableEq

/-- The JobError raised when the install done channel carries an error. -/
def installFailedErr (msg : String) : JobError :=
  { ErrCode := "ERR_MENDER_INSTALL_FAILED", ErrMessage := msg }

/-- The JobError raised when the install timeout fires. -/
def installTimeoutErr : JobError :=
  { ErrCode := "ERR_MENDER_INSTALL_TIMEOUT", ErrMessage := "mender timed out" }

/-- The JobError raised when cmd.Commit fails in the resume branch. -/
def commitErr : JobError :=
  { ErrCode := "ERR_MENDER_COMMIT", ErrMessage := "error committing" }

/-- The JobError raised when cmd.Rollback fails. -/
def rollbackErr : JobError :=
  { ErrCode := "ERR_MENDER_ROLLBACK_FAIL", ErrMessage := "unable to run rollback" }

/-- The select loop of the fresh-install branch of Job.exec, consuming the
events in arrival order.  A progress line is relayed to the monitoring topic
and the loop continues; an error on the done channel reports Fail and
returns it; a nil result on the done channel reports InProgress("rebooting"),
spawns the reboot task and returns nil; the timeout reports Fail with the
timeout code and returns it.  The empty list stands for a run in which no
further event has arrived yet: the Go loop is still blocked in select and
has performed no further action. -/
def execInstallLoop : List InstallEvent → List ExecAction × Option GoErr
  | [] => ([], none)
  | .progress line :: rest =>
      let r := execInstallLoop rest
      (.reportProgressMsg line :: r.1, r.2)
  | .done (some msg) :: _ =>
      ([.reportFail (installFailedErr msg)], some (.job (installFailedErr msg)))
  | .done none :: _ =>
      ([.reportInProgress "rebooting", .spawnReboot], none)
  | .timeout :: _ =>
      ([.reportFail installTimeoutErr], some (.job installTimeoutErr))

/-- The goroutine spawned after a successful install: runs shutdown -r now;
if it fails, Fail(ERROR_UNABLE_TO_REBOOT) is reported, otherwise Terminate
is called on the reporter. -/
def rebootTask (shutdownRes : Option String) : List ExecAction :=
  match shutdownRes with
  | some msg =>
      [.rebootCmd, .reportFail { ErrCode := "ERROR_UNABLE_TO_REBOOT", ErrMessage := msg }]
  | none => [.rebootCmd, .terminate]

/-- Job.exec from mender.go.  events is the arrival order of the install
select loop events; commitRes and rollbackRes are the results of cmd.Commit
and cmd.Rollback (none models a nil error).  Returns the actions performed
in program order and the Go return value.  The progress and success helpers
also set menderState.Step; only the actions matter downstream, so the state
write is not threaded here. -/
def Job.exec (mj : Job) (events : List InstallEvent)
    (commitRes rollbackRes : Option String) : List ExecAction × Option GoErr :=
  if mj.operation = "mender_install" then
    if mj.menderState.step = "rebooting" then
      match commitRes with
      | some _ =>
          ([.reportProgressMsg "rebooted", .callCommit, .reportFail commitErr],
           some (.job commitErr))
      | none =>
          ([.reportProgressMsg "rebooted", .callCommit, .reportSuccess "committed"],
           none)
    else
      let r := execInstallLoop events
      (.reportInProgress "installing" :: .callInstall mj.url :: r.1, r.2)
  else if mj.operation = "mender_rollback" then
    match rollbackRes with
    | some msg =>
        ([.callRollback, .reportFail rollbackErr], some (.str msg))
    | none =>
        ([.callRollback, .reportSuccess "rolled_back"], none)
  else ([], none)

/-- parseJobDocument from mender.go: decode the job document into a Job,
validate the operation, and only on the valid paths decode the persisted
step from the status details. -/
def parseJobDocument (je : JobExecution) : Except JobError Job :=
  let job : Job := { operation := je.jobDocument.operation, url := je.jobDocument.url }
  if job.operation = "mender_install" then
    if job.url.length = 0 then
      .error { ErrCode := "ERR_MENDER_MISSING_URL", ErrMessage := "missing url parameter" }
    else
      .ok { job with menderState := { step := stepOf je.statusDetails } }
  else if job.operation = "mender_rollback" then
    .ok { job with menderState := { step := stepOf je.statusDetails } }
  else
    .error { ErrCode := "ERR_JOB_INVALID_OPERATION",
             ErrMessage := "unrecognized or missing operation" }

/-- Top level actions of Process. -/
inductive ProcessAction where
  | reject (e : JobError) : ProcessAction
  | spawnExec (job : Job) : ProcessAction
deriving DecidableEq

/-- Process from mender.go.  On a parse error the Go code switches on the
error code; a Go switch case does not fall through to the next case, so the
body of the ERR_MENDER_MISSING_URL case is empty and only the
ERR_JOB_INVALID_OPERATION case calls reject.  On success exec is spawned
asynchronously. -/
def Process (je : JobExecution) : List ProcessAction :=
  match parseJobDocument je with
  | .error e =>
      if e.ErrCode = "ERR_MENDER_MISSING_URL" then []
      else if e.ErrCode = "ERR_JOB_INVALID_OPERATION" then [.reject e]
      else []
  | .ok job => [.spawnExec job]

/-- Recognizes a call to the Install method of the commander. -/
def isCallInstall : ExecAction → Bool
  | .callInstall _ => true
  | _ => false

/-- Recognizes a call to the Commit method of the commander. -/
def isCallCommit : ExecAction → Bool
  | .callCommit => true
  | _ => false

/-- Recognizes a call to the Rollback method of the commander. -/
def isCallRollback : ExecAction → Bool
  | .callRollback => true
  | _ => false

/-- Recognizes a Fail report carrying the given error code. -/
def isFailWith (code : String) : ExecAction → Bool
  | .reportFail e => e.ErrCode == code
  | _ => false

/-- Recognizes a terminal status report (Success or Fail). -/
def isTerminalReport : ExecAction → Bool
  | .reportFail _ => true
  | .reportSuccess _ => true
  | _ => false

/-- Recognizes a progress event of the install select loop. -/
def isProgressEvent : InstallEvent → Bool
  | .progress _ => true
  | _ => false

/-- The monitoring relays produced by a run of progress events. -/
def progressActions : List InstallEvent → List ExecAction
  | [] => []
  | .progress line :: rest => .reportProgressMsg line :: progressActions rest
  | .done _ :: rest => progressActions rest
  | .timeout :: rest => progressActions rest

end Mender

section Helpers

open AwsIotJobs Mender

/-- Two job topics built for the same thing from different suffixes agree
only when the suffixes agree. -/
theorem jobBaseTopic_inj {t s₁ s₂ : String}
    (h : jobBaseTopic t s₁ = jobBaseTopic t s₂) : s₁ = s₂ := by
  unfold jobBaseTopic at h
  have hd := congrArg String.data h
  simp only [String.data_append, List.append_assoc] at hd
  have h1 := List.append_cancel_left hd
  have h2 := List.append_cancel_left h1
  have h3 := List.append_cancel_left h2
  exact congrArg String.mk h3

/-- The select loop performs no commander call at all. -/
theorem execInstallLoop_no_commander_call (evs : List InstallEvent) :
    (execInstallLoop evs).1.any isCallCommit = false ∧
    (execInstallLoop evs).1.any isCallInstall = false ∧
    (execInstallLoop evs).1.any isCallRollback = false := by
  induction evs with
  | nil => exact ⟨rfl, rfl, rfl⟩
  | cons e rest ih =>
    cases e with
    | progress line =>
        simpa [execInstallLoop, isCallCommit, isCallInstall, isCallRollback]
          using ih
    | done res =>
        cases res <;>
          simp [execInstallLoop, isCallCommit, isCallInstall, isCallRollback]
    | timeout =>
        simp [execInstallLoop, isCallCommit, isCallInstall, isCallRollback]

/-- When every event before the first timeout is a progress line and no done
event precedes it, the select loop relays those lines and then fails with the
timeout error, consuming nothing that follows. -/
theorem execInstallLoop_timeout_first (pre post : List InstallEvent)
    (hpre : pre.all isProgressEvent = true) :
    execInstallLoop (pre ++ .timeout :: post) =
      (progressActions pre ++ [.reportFail installTimeoutErr],
       some (.job installTimeoutErr)) := by
  induction pre with
  | nil => rfl
  | cons e rest ih =>
    cases e with
    | progress line =>
        simp only [List.all_cons, Bool.and_eq_true] at hpre
        simp [execInstallLoop, progressActions, ih hpre.2]
    | done res => simp [isProgressEvent] at hpre
    | timeout => simp [isProgressEvent] at hpre

/-- The monitoring relays of a run of progress events contain no terminal
report. -/
theorem progressActions_countP_terminal (evs : List InstallEvent) :
    (progressActions evs).countP isTerminalReport = 0 := by
  induction evs with
  | nil => rfl
  | cons e rest ih =>
    cases e <;> simp [progressActions, List.countP_cons, isTerminalReport, ih]

/-- The monitoring relays of a run of progress events contain no Fail report
of any code. -/
theorem progressActions_countP_failWith (code : String) (evs : List InstallEvent) :
    (progressActions evs).countP (isFailWith code) = 0 := by
  induction evs with
  | nil => rfl
  | cons e rest ih =>
    cases e <;> simp [progressActions, List.countP_cons, isFailWith, ih]

end Helpers

section Claims

open AwsIotJobs Mender

/-- Claim C1, observed code behavior at the failing input: for a job
execution whose document has operation "mender_install" and no url,
parseJobDocument yields the missing-url validation error, yet Process
performs no action at all: the switch case for ERR_MENDER_MISSING_URL has an
empty body (a Go switch case does not fall through), so Reject is never
called; no exec is spawned either, so no Updater method runs. -/
theorem process_missing_url_does_nothing :
    Mender.parseJobDocument
        { jobDocument := { operation := "mender_install", url := "" } } =
      .error { ErrCode := "ERR_MENDER_MISSING_URL",
               ErrMessage := "missing url parameter" } ∧
    Mender.Process { jobDocument := { operation := "mender_install", url := "" } }
      = [] := by
  exact ⟨rfl, rfl⟩

/-- Claim C2, counterexample: after a completed Success (published and
acknowledged, echo subscription released), a second Success on the resulting
record publishes one further status message, not zero. -/
theorem second_success_publishes_again :
    countPublish
      (JobExecution.Success
        (JobExecution.Success
          { jobID := "j1", thingName := "tn", status := "IN_PROGRESS",
            versionNumber := 2 }
          [("step", "committed")] .ackedOk).state
        [("step", "committed")] .ackedOk).actions = 1 := by
  rfl

/-- Claim C2 as amended: the reporter keeps no terminal latch; every call to
Success, Fail or Reject publishes exactly one status message, whatever the
current status of the record is (in particular also when a terminal
operation has already completed on it). -/
theorem terminal_calls_always_publish (je : JobExecution) (sd : StatusDetails)
    (e : JobError) (o : PublishOutcome) :
    countPublish (je.Success sd o).actions = 1 ∧
    countPublish (je.Fail e o).actions = 1 ∧
    countPublish (je.Reject e o).actions = 1 := by
  refine ⟨?_, ?_, ?_⟩ <;>
    cases o <;>
      simp [JobExecution.Success, JobExecution.Fail, JobExecution.Reject,
        JobExecution.sendUpdate, sendUpdateResult, countPublish,
        List.countP_append, List.countP_cons, isPublishStatus]

/-- Claim C3, counterexample: when the publish is not acknowledged within
the bounded 2 second wait (token.WaitTimeout returns false), InProgress
returns nil, not a non-nil transport error: the Go condition
token.WaitTimeout(publishTimeout) && token.Error() != nil short-circuits to
false on timeout. -/
theorem inprogress_timeout_returns_nil :
    (JobExecution.InProgress { jobID := "j1", thingName := "tn" }
      [("step", "installing")] .timedOut).err = none := by
  rfl

/-- Claim C3 as amended: InProgress publishes exactly once (no retry) and
returns a non-nil transport error only when the publish completes within the
bounded 2 second wait carrying an error; when the wait elapses without
acknowledgment the timeout is swallowed and nil is returned. -/
theorem inprogress_error_only_when_acked_with_error (je : JobExecution)
    (sd : StatusDetails) (m : String) :
    (je.InProgress sd .timedOut).err = none ∧
    (je.InProgress sd .ackedOk).err = none ∧
    (je.InProgress sd (.ackedErr m)).err = some m ∧
    countPublish (je.InProgress sd .timedOut).actions = 1 ∧
    countPublish (je.InProgress sd (.ackedErr m)).actions = 1 := by
  refine ⟨rfl, rfl, rfl, ?_, ?_⟩ <;> rfl

/-- Claim C7: a message whose payload has no "execution" field makes
parseJobMessage return the ERR_INVALID_JOB error (no abort), and jobHandler
performs no action at all: no echo subscription, no handler spawned, hence
no Updater method and no state change. -/
theorem missing_execution_field_ignored (thingName raw : String) :
    parseJobMessage raw none =
      .error { ErrCode := "ERR_INVALID_JOB",
               ErrMessage := "missing \"execution\" from payload: " ++ raw } ∧
    jobHandler thingName raw none = [] := by
  exact ⟨rfl, rfl⟩

/-- Claim C10: Fail and Reject replace the whole status details of the
record by the single entry mapping "error" to the rendering
code <ErrCode>, msg: <ErrMessage> of the job error; any previously stored
"step" entry is gone from the record afterwards. -/
theorem fail_reject_overwrite_status_details (je : JobExecution)
    (err : JobError) (o : PublishOutcome) :
    (je.Fail err o).state.statusDetails =
      [("error", "code " ++ err.ErrCode ++ ", msg: " ++ err.ErrMessage)] ∧
    (je.Reject err o).state.statusDetails =
      [("error", "code " ++ err.ErrCode ++ ", msg: " ++ err.ErrMessage)] ∧
    List.lookup "step" (je.Fail err o).state.statusDetails = none ∧
    List.lookup "step" (je.Reject err o).state.statusDetails = none := by
  cases o <;>
    simp [JobExecution.Fail, JobExecution.Reject, JobExecution.sendUpdate,
      sendUpdateResult, JobError.Error, List.lookup]

end Claims

section ClaimsTwo

open AwsIotJobs Mender

/-- Claim C4: for an install job, the persisted step decides the commander
call: step rebooting leads to Commit and never Install, a fresh empty step
leads to Install with the job url and never Commit. -/
theorem install_branch_dispatch (mj : Job) (events : List InstallEvent)
    (cr rr : Option String) (hop : mj.operation = "mender_install") :
    (mj.menderState.step = "rebooting" →
      (Job.exec mj events cr rr).1.any isCallCommit = true ∧
      (Job.exec mj events cr rr).1.any isCallInstall = false) ∧
    (mj.menderState.step = "" →
      ExecAction.callInstall mj.url ∈ (Job.exec mj events cr rr).1 ∧
      (Job.exec mj events cr rr).1.any isCallCommit = false) := by
  constructor
  · intro hstep
    cases cr <;> simp [Job.exec, hop, hstep, isCallCommit, isCallInstall]
  · intro hstep
    have hloop := execInstallLoop_no_commander_call events
    constructor
    · simp [Job.exec, hop, hstep]
    · simp [Job.exec, hop, hstep, isCallCommit, hloop.1]

/-- Claim C4 witness: a fresh install job dispatches Install with its url. -/
theorem install_branch_dispatch_witness :
    ({ operation := "mender_install", url := "u" } : Job).operation
        = "mender_install" ∧
    ({ operation := "mender_install", url := "u" } : Job).menderState.step = "" ∧
    ExecAction.callInstall "u" ∈
      (Job.exec { operation := "mender_install", url := "u" } [] none none).1 :=
  ⟨rfl, rfl,
    ((install_branch_dispatch { operation := "mender_install", url := "u" }
      [] none none rfl).2 rfl).1⟩

/-- Claim C5: if the install select loop sees only progress lines before the
deadline fires, the run relays those lines and then fails exactly once with
the install-timeout code; whatever the commander emits after the deadline
(the events in post, a terminal result included) is never consumed, so no
second status report occurs for the job. -/
theorem install_timeout_fails_once (mj : Job) (pre post : List InstallEvent)
    (cr rr : Option String)
    (hop : mj.operation = "mender_install")
    (hstep : mj.menderState.step ≠ "rebooting")
    (hpre : pre.all isProgressEvent = true) :
    (Job.exec mj (pre ++ .timeout :: post) cr rr).1 =
      .reportInProgress "installing" :: .callInstall mj.url ::
        (progressActions pre ++ [.reportFail installTimeoutErr]) ∧
    (Job.exec mj (pre ++ .timeout :: post) cr rr).1.countP
        (isFailWith "ERR_MENDER_INSTALL_TIMEOUT") = 1 ∧
    (Job.exec mj (pre ++ .timeout :: post) cr rr).1.countP
        isTerminalReport = 1 := by
  have hlp := execInstallLoop_timeout_first pre post hpre
  have heq : (Job.exec mj (pre ++ .timeout :: post) cr rr).1 =
      ExecAction.reportInProgress "installing" :: ExecAction.callInstall mj.url ::
        (progressActions pre ++ [ExecAction.reportFail installTimeoutErr]) := by
    simp [Job.exec, hop, if_neg hstep, hlp]
  refine ⟨heq, ?_, ?_⟩
  · rw [heq]
    simp [List.countP_cons, List.countP_append, isFailWith,
      progressActions_countP_failWith, installTimeoutErr]
  · rw [heq]
    simp [List.countP_cons, List.countP_append, isTerminalReport,
      progressActions_countP_terminal]

/-- Claim C5 witness: one progress line, then the deadline, then a late nil
terminal result from the commander; exactly one Fail with the timeout code. -/
theorem install_timeout_fails_once_witness :
    ({ operation := "mender_install", url := "u" } : Job).menderState.step
        ≠ "rebooting" ∧
    ([InstallEvent.progress "p1"].all isProgressEvent = true) ∧
    (Job.exec { operation := "mender_install", url := "u" }
        ([InstallEvent.progress "p1"] ++ .timeout :: [InstallEvent.done none])
        none none).1.countP (isFailWith "ERR_MENDER_INSTALL_TIMEOUT") = 1 ∧
    (Job.exec { operation := "mender_install", url := "u" }
        ([InstallEvent.progress "p1"] ++ .timeout :: [InstallEvent.done none])
        none none).1.countP isTerminalReport = 1 :=
  ⟨by decide, by decide,
    (install_timeout_fails_once { operation := "mender_install", url := "u" }
      [InstallEvent.progress "p1"] [InstallEvent.done none] none none rfl
      (by decide) (by decide)).2.1,
    (install_timeout_fails_once { operation := "mender_install", url := "u" }
      [InstallEvent.progress "p1"] [InstallEvent.done none] none none rfl
      (by decide) (by decide)).2.2⟩

/-- Claim C6: after publishing a status carrying expectedVersion N, an
accepted echo carrying versionNumber N+1 is stored by updateHandler, so the
next status publish, through whichever reporter operation, carries
expectedVersion N+1. -/
theorem echo_resync_next_publish (je : JobExecution) (es : ExecutionStateType)
    (sd : StatusDetails) (e : JobError) (o : PublishOutcome) (n : Int)
    (_h1 : (getUpdatePayload je).expectedVersion = n)
    (h2 : es.versionNumber = n + 1) :
    publishedVersions ((je.updateHandler es).InProgress sd o).actions = [n + 1] ∧
    publishedVersions ((je.updateHandler es).Success sd o).actions = [n + 1] ∧
    publishedVersions ((je.updateHandler es).Fail e o).actions = [n + 1] ∧
    publishedVersions ((je.updateHandler es).Reject e o).actions = [n + 1] := by
  refine ⟨?_, ?_, ?_, ?_⟩ <;>
    cases o <;>
      simp [JobExecution.updateHandler, JobExecution.InProgress,
        JobExecution.Success, JobExecution.Fail, JobExecution.Reject,
        JobExecution.sendUpdate, sendUpdateResult, getUpdatePayload,
        publishedVersions, h2]

/-- Claim C6 witness: a record at version 5 receives an echo carrying 6; the
next InProgress publish carries expectedVersion 6. -/
theorem echo_resync_next_publish_witness :
    (getUpdatePayload ({ versionNumber := 5 } : JobExecution)).expectedVersion
        = 5 ∧
    ({ versionNumber := 6 } : ExecutionStateType).versionNumber = 5 + 1 ∧
    publishedVersions
      ((JobExecution.updateHandler { versionNumber := 5 }
          { versionNumber := 6 }).InProgress [] .ackedOk).actions = [5 + 1] :=
  ⟨rfl, by decide,
    (echo_resync_next_publish { versionNumber := 5 } { versionNumber := 6 }
      [] { ErrCode := "E", ErrMessage := "m" } .ackedOk 5 rfl (by decide)).1⟩

/-- Claim C8, counterexample: Terminate on a record for thing tn does not
release the update echo subscription: the echo topic is not among the topics
it unsubscribes. -/
theorem terminate_does_not_release_echo :
    ReporterAction.unsubscribeTopic (echoTopic "tn") ∉
      JobExecution.Terminate { jobID := "j1", thingName := "tn" } := by
  decide

/-- Claim C8 as amended: Terminate publishes no status message and releases
exactly the five client job notification subscriptions (notify-next, the get
and start-next accepted and rejected topics); the per-job update echo topic
is not among them, so the echo subscription stays open. -/
theorem terminate_unsubscribes_client_topics_only (je : JobExecution) :
    je.Terminate = clientUnsubscribe je.thingName ∧
    countPublish je.Terminate = 0 ∧
    ReporterAction.unsubscribeTopic (echoTopic je.thingName) ∉ je.Terminate := by
  refine ⟨rfl, rfl, ?_⟩
  intro h
  simp only [JobExecution.Terminate, clientUnsubscribe, echoTopic,
    List.mem_cons, List.not_mem_nil, or_false,
    ReporterAction.unsubscribeTopic.injEq] at h
  rcases h with h | h | h | h | h <;>
    exact absurd (jobBaseTopic_inj h) (by decide)

/-- Claim C9: in the resume-after-reboot branch (operation install, step
rebooting) a nil Commit result reports Success("committed"), a failing
Commit reports Fail with the ERR_MENDER_COMMIT code, and Rollback is never
invoked in either case. -/
theorem resume_branch_commit_only (mj : Job) (events : List InstallEvent)
    (rr : Option String) (m : String)
    (hop : mj.operation = "mender_install")
    (hstep : mj.menderState.step = "rebooting") :
    (Job.exec mj events none rr).1 =
      [.reportProgressMsg "rebooted", .callCommit, .reportSuccess "committed"] ∧
    (Job.exec mj events (some m) rr).1 =
      [.reportProgressMsg "rebooted", .callCommit, .reportFail commitErr] ∧
    (Job.exec mj events none rr).1.any isCallRollback = false ∧
    (Job.exec mj events (some m) rr).1.any isCallRollback = false := by
  refine ⟨?_, ?_, ?_, ?_⟩ <;> simp [Job.exec, hop, hstep, isCallRollback]

/-- Claim C9 witness: the resume branch on a concrete job commits and
reports Success("committed") when Commit returns nil. -/
theorem resume_branch_commit_only_witness :
    ({ operation := "mender_install",
       menderState := { step := "rebooting" } } : Job).menderState.step
        = "rebooting" ∧
    (Job.exec
        { operation := "mender_install", menderState := { step := "rebooting" } }
        [] none none).1 =
      [.reportProgressMsg "rebooted", .callCommit, .reportSuccess "committed"] :=
  ⟨rfl,
    (resume_branch_commit_only
      { operation := "mender_install", menderState := { step := "rebooting" } }
      [] none "m" rfl rfl).1⟩

end ClaimsTwo
